import Mathlib

/-!
Verification of the jira-cli-rust core: the persistence layer (`src/db.rs`),
the entity model (`src/models.rs`), the navigator state machine
(`src/navigator.rs`) and the screen input interpreters (`src/ui/pages/*`).

Rust `HashMap<u32, V>` values are embedded as association lists
`List (Nat × V)` with first-match lookup; `u32` ids are embedded as `Nat`
(overflow of the id counter is unreachable in practice and the source does
no wrapping arithmetic on ids beyond `+ 1`).

Each `JiraDatabase` method performs a full read of the backing medium,
mutates a local copy and conditionally writes the copy back.  The in-memory
backing medium (`MockDB` realizes the `Database` trait purely) is embedded
as a `DBState` value, and each method becomes a function
`DBState → ... → DBState × Except DBError α`: the first component is the
state the backing medium holds after the call (unchanged when the method
returned before its `write`), the second the returned `Result`.
-/

namespace Jira

/-- `Status` from `src/models.rs`. -/
inductive Status where
  | Open
  | InProgress
  | Resolved
  | Closed
deriving DecidableEq, Repr

/-- `Epic` from `src/models.rs`: name, description, status and the list of
child story ids. -/
structure Epic where
  name : String
  description : String
  status : Status
  stories : List Nat
deriving DecidableEq, Repr

/-- `Epic::new`: fresh epic with status `Open` and no stories. -/
def Epic.new (name description : String) : Epic :=
  { name := name, description := description, status := Status.Open, stories := [] }

/-- `Story` from `src/models.rs`. -/
structure Story where
  name : String
  description : String
  status : Status
deriving DecidableEq, Repr

/-- `Story::new`: fresh story with status `Open`. -/
def Story.new (name description : String) : Story :=
  { name := name, description := description, status := Status.Open }

/-- `DBState` from `src/models.rs`: the aggregate persisted state. -/
structure DBState where
  last_item_id : Nat
  epics : List (Nat × Epic)
  stories : List (Nat × Story)
deriving DecidableEq, Repr

/-- First-match lookup in an association list (`HashMap::get`). -/
def lookupK {α : Type} (m : List (Nat × α)) (k : Nat) : Option α :=
  match m with
  | [] => none
  | (k', v) :: rest => if k' = k then some v else lookupK rest k

/-- `HashMap::contains_key`. -/
def containsK {α : Type} (m : List (Nat × α)) (k : Nat) : Bool :=
  (lookupK m k).isSome

/-- `HashMap::insert`: replace the entry for `k` when present, else add one. -/
def insertK {α : Type} (m : List (Nat × α)) (k : Nat) (v : α) : List (Nat × α) :=
  match m with
  | [] => [(k, v)]
  | (k', v') :: rest => if k' = k then (k, v) :: rest else (k', v') :: insertK rest k v

/-- `HashMap::remove`: drop the entry for `k`.  A `HashMap` holds at most
one entry per key, so dropping every matching entry of the association
list is the same operation. -/
def removeK {α : Type} (m : List (Nat × α)) (k : Nat) : List (Nat × α) :=
  match m with
  | [] => []
  | (k', v') :: rest => if k' = k then removeK rest k else (k', v') :: removeK rest k

/-- In-place mutation through `HashMap::get_mut`: apply `f` to the value
stored under `k` (no effect when `k` is absent). -/
def updateK {α : Type} (m : List (Nat × α)) (k : Nat) (f : α → α) : List (Nat × α) :=
  match m with
  | [] => []
  | (k', v') :: rest => if k' = k then (k', f v') :: rest else (k', v') :: updateK rest k f

/-- The `anyhow` errors produced by `JiraDatabase` methods, by their cause. -/
inductive DBError where
  | EpicNotFound
  | StoryNotFound
deriving DecidableEq, Repr

/-- `JiraDatabase::create_epic`: next id is `last_item_id + 1`; the epic is
inserted under it, the counter is bumped and the state written.  Never
fails (no id to look up). -/
def create_epic (s : DBState) (epic : Epic) : DBState × Nat :=
  let newId := s.last_item_id + 1
  ({ last_item_id := newId
     epics := insertK s.epics newId epic
     stories := s.stories }, newId)

/-- `JiraDatabase::create_story`: fails before writing when `epic_id` is
absent; otherwise pushes the new id onto the parent epic's `stories`
list, inserts the story and bumps the counter. -/
def create_story (s : DBState) (story : Story) (epic_id : Nat) :
    DBState × Except DBError Nat :=
  match lookupK s.epics epic_id with
  | none => (s, Except.error DBError.EpicNotFound)
  | some _ =>
    let newId := s.last_item_id + 1
    ({ last_item_id := newId
       epics := updateK s.epics epic_id (fun ep => { ep with stories := ep.stories ++ [newId] })
       stories := insertK s.stories newId story }, Except.ok newId)

/-- `JiraDatabase::delete_epic`: fails when `epic_id` is absent; otherwise
removes every id listed in the epic's `stories` from the stories map
(absent ids are no-ops of `removeK`), then removes the epic.  The counter
is untouched. -/
def delete_epic (s : DBState) (epic_id : Nat) : DBState × Except DBError Unit :=
  match lookupK s.epics epic_id with
  | none => (s, Except.error DBError.EpicNotFound)
  | some epic =>
    ({ s with
       stories := epic.stories.foldl (fun m sid => removeK m sid) s.stories
       epics := removeK s.epics epic_id }, Except.ok ())

/-- `JiraDatabase::update_epic_status`: overwrite the status of the epic
under `epic_id`, failing when it is absent. -/
def update_epic_status (s : DBState) (epic_id : Nat) (status : Status) :
    DBState × Except DBError Unit :=
  match lookupK s.epics epic_id with
  | none => (s, Except.error DBError.EpicNotFound)
  | some _ =>
    ({ s with epics := updateK s.epics epic_id (fun ep => { ep with status := status }) },
     Except.ok ())

/-- `JiraDatabase::update_story_status`: overwrite the status of the story
under `story_id`, failing when it is absent. -/
def update_story_status (s : DBState) (story_id : Nat) (status : Status) :
    DBState × Except DBError Unit :=
  match lookupK s.stories story_id with
  | none => (s, Except.error DBError.StoryNotFound)
  | some _ =>
    ({ s with stories := updateK s.stories story_id (fun st => { st with status := status }) },
     Except.ok ())

/-- Modelled from the spec: `JiraDatabase::delete_story` is invoked by
`Navigator::handle_action` (`src/navigator.rs`) but its definition is not
among the provided sources of `src/db.rs`.  Per the spec it removes the
story from the stories map and removes its id from the named epic's
`stories` list, then writes; it fails with `EpicNotFound` when the epic is
absent, and the story's absence from the epic's list is tolerated. -/
def delete_story (s : DBState) (epic_id story_id : Nat) : DBState × Except DBError Unit :=
  match lookupK s.epics epic_id with
  | none => (s, Except.error DBError.EpicNotFound)
  | some _ =>
    ({ s with
       stories := removeK s.stories story_id
       epics := updateK s.epics epic_id
         (fun ep => { ep with stories := ep.stories.filter (fun i => i ≠ story_id) }) },
     Except.ok ())

/-- `Action` from `src/models.rs`: the intents a screen can produce. -/
inductive Action where
  | NavigateToEpicDetail (epic_id : Nat)
  | NavigateToStoryDetail (epic_id story_id : Nat)
  | NavigateToPreviousPage
  | CreateEpic
  | UpdateEpicStatus (epic_id : Nat)
  | DeleteEpic (epic_id : Nat)
  | CreateStory (epic_id : Nat)
  | UpdateStoryStatus (story_id : Nat)
  | DeleteStory (epic_id story_id : Nat)
  | Exit
deriving DecidableEq, Repr

/-- The `Page` trait objects stacked by the navigator, identified by their
variant and bound ids (each also holds an `Rc` of the shared database,
which the embedding keeps once in the navigator). -/
inductive PageKind where
  | HomePage
  | EpicDetail (epic_id : Nat)
  | StoryDetail (epic_id story_id : Nat)
deriving DecidableEq, Repr

/-- `Prompts` from `src/ui`: blocking user-input callbacks, embedded by the
value each callback returns when invoked during one `handle_action` call. -/
structure Prompts where
  create_epic : Epic
  create_story : Story
  update_status : Option Status
  delete_epic : Bool
  delete_story : Bool
deriving DecidableEq, Repr

/-- `Navigator` state: the page stack (`Vec`, top = last) and the shared
database's current state. -/
structure Navigator where
  pages : List PageKind
  db : DBState
deriving DecidableEq, Repr

/-- `Navigator::new`: the stack starts with exactly one `HomePage`. -/
def Navigator.new (db : DBState) : Navigator :=
  { pages := [PageKind.HomePage], db := db }

/-- `Navigator::handle_action` over `&mut self`: returns the navigator as
left by the call together with the error, if any, that the `?` operator
propagated to the caller. -/
def handle_action (nav : Navigator) (prompts : Prompts) (action : Action) :
    Navigator × Option DBError :=
  match action with
  | Action.NavigateToEpicDetail epic_id =>
    ({ nav with pages := nav.pages ++ [PageKind.EpicDetail epic_id] }, none)
  | Action.NavigateToStoryDetail epic_id story_id =>
    ({ nav with pages := nav.pages ++ [PageKind.StoryDetail epic_id story_id] }, none)
  | Action.NavigateToPreviousPage =>
    ({ nav with pages := nav.pages.dropLast }, none)
  | Action.CreateEpic =>
    let (db', _) := create_epic nav.db prompts.create_epic
    ({ nav with db := db' }, none)
  | Action.UpdateEpicStatus epic_id =>
    match prompts.update_status with
    | none => (nav, none)
    | some status =>
      match update_epic_status nav.db epic_id status with
      | (db', Except.ok _) => ({ nav with db := db' }, none)
      | (db', Except.error e) => ({ nav with db := db' }, some e)
  | Action.DeleteEpic epic_id =>
    if prompts.delete_epic then
      match delete_epic nav.db epic_id with
      | (db', Except.ok _) => ({ pages := nav.pages.dropLast, db := db' }, none)
      | (db', Except.error e) => ({ nav with db := db' }, some e)
    else (nav, none)
  | Action.CreateStory epic_id =>
    match create_story nav.db prompts.create_story epic_id with
    | (db', Except.ok _) => ({ nav with db := db' }, none)
    | (db', Except.error e) => ({ nav with db := db' }, some e)
  | Action.UpdateStoryStatus story_id =>
    match prompts.update_status with
    | none => (nav, none)
    | some status =>
      match update_story_status nav.db story_id status with
      | (db', Except.ok _) => ({ nav with db := db' }, none)
      | (db', Except.error e) => ({ nav with db := db' }, some e)
  | Action.DeleteStory epic_id story_id =>
    if prompts.delete_story then
      match delete_story nav.db epic_id story_id with
      | (db', Except.ok _) => ({ pages := nav.pages.dropLast, db := db' }, none)
      | (db', Except.error e) => ({ nav with db := db' }, some e)
    else (nav, none)
  | Action.Exit => ({ nav with pages := [] }, none)

/-- `str::parse::<u32>`: an optional leading `+`, then one or more decimal
digits whose value fits in 32 bits; anything else (empty input, other
characters, whitespace, overflow) fails. -/
def parseU32 (s : String) : Option Nat :=
  match s.data with
  | [] => none
  | c :: rest =>
    let digits := if c = '+' then rest else c :: rest
    if digits ≠ [] ∧ digits.all Char.isDigit then
      let v := digits.foldl (fun acc d => acc * 10 + (d.toNat - 48)) 0
      if v < 2 ^ 32 then some v else none
    else none

/-- `EpicDetail::handle_input` (`src/ui/pages/epic_detail_page.rs`) as a
function of the current database state (the screen reads the store) and
the input line. -/
def EpicDetail.handle_input (epic_id : Nat) (db : DBState) (input : String) : Option Action :=
  if input = "p" then some Action.NavigateToPreviousPage
  else if input = "u" then some (Action.UpdateEpicStatus epic_id)
  else if input = "d" then some (Action.DeleteEpic epic_id)
  else if input = "c" then some (Action.CreateStory epic_id)
  else
    match parseU32 input with
    | none => none
    | some story_id =>
      if containsK db.stories story_id then
        some (Action.NavigateToStoryDetail epic_id story_id)
      else none

/-- The JSON documents exchanged with the backing file by
`JSONFileDatabase` (`serde_json` value level; only the productions the
schema uses). -/
inductive Json where
  | num (n : Nat)
  | str (s : String)
  | arr (elems : List Json)
  | obj (fields : List (String × Json))

/-- Decimal digits of `n`, most significant first (`u32::to_string`). -/
def natToDigits (n : Nat) : List Char :=
  if h : n < 10 then [Char.ofNat (48 + n)]
  else natToDigits (n / 10) ++ [Char.ofNat (48 + n % 10)]
decreasing_by exact Nat.div_lt_self (by omega) (by omega)

/-- Stringified id, used by serde for integer map keys. -/
def natRepr (n : Nat) : String :=
  String.mk (natToDigits n)

/-- Unit `Status` variants serialize as their Rust identifier. -/
def encodeStatus (st : Status) : Json :=
  match st with
  | Status.Open => Json.str ("Open")
  | Status.InProgress => Json.str ("InProgress")
  | Status.Resolved => Json.str ("Resolved")
  | Status.Closed => Json.str ("Closed")

def decodeStatus (j : Json) : Option Status :=
  match j with
  | Json.str s =>
    if s = ("Open" : String) then some Status.Open
    else if s = ("InProgress" : String) then some Status.InProgress
    else if s = ("Resolved" : String) then some Status.Resolved
    else if s = ("Closed" : String) then some Status.Closed
    else none
  | _ => none

/-- A JSON number deserialized into `u32`. -/
def decodeNatU32 (j : Json) : Option Nat :=
  match j with
  | Json.num n => if n < 2 ^ 32 then some n else none
  | _ => none

/-- First-match field lookup in a JSON object. -/
def getField (fs : List (String × Json)) (k : String) : Option Json :=
  match fs with
  | [] => none
  | (k', v) :: rest => if k' = k then some v else getField rest k

/-- Element-wise decoding of a sequence, failing on the first bad element
(the `serde` behaviour for `Vec` and map contents). -/
def mapMO {α β : Type} (f : α → Option β) : List α → Option (List β)
  | [] => some []
  | x :: xs => do
    let y ← f x
    let ys ← mapMO f xs
    pure (y :: ys)

def encodeEpic (e : Epic) : Json :=
  Json.obj [(("name" : String), Json.str e.name),
            (("description" : String), Json.str e.description),
            (("status" : String), encodeStatus e.status),
            (("stories" : String), Json.arr (e.stories.map Json.num))]

def decodeEpic (j : Json) : Option Epic :=
  match j with
  | Json.obj fs => do
    let nm ← getField fs ("name")
    let ds ← getField fs ("description")
    let st ← getField fs ("status")
    let sj ← getField fs ("stories")
    match nm, ds, sj with
    | Json.str nm', Json.str ds', Json.arr xs => do
      let status ← decodeStatus st
      let ids ← mapMO decodeNatU32 xs
      pure { name := nm', description := ds', status := status, stories := ids }
    | _, _, _ => none
  | _ => none

def encodeStory (st : Story) : Json :=
  Json.obj [(("name" : String), Json.str st.name),
            (("description" : String), Json.str st.description),
            (("status" : String), encodeStatus st.status)]

def decodeStory (j : Json) : Option Story :=
  match j with
  | Json.obj fs => do
    let nm ← getField fs ("name")
    let ds ← getField fs ("description")
    let st ← getField fs ("status")
    match nm, ds with
    | Json.str nm', Json.str ds' => do
      let status ← decodeStatus st
      pure { name := nm', description := ds', status := status }
    | _, _ => none
  | _ => none

def encodeEpics (m : List (Nat × Epic)) : Json :=
  Json.obj (m.map (fun p => (natRepr p.1, encodeEpic p.2)))

/-- One `"id": epicObject` entry of the epics map. -/
def decodeEpicEntry (p : String × Json) : Option (Nat × Epic) := do
  let k ← parseU32 p.1
  let e ← decodeEpic p.2
  pure (k, e)

def decodeEpics (j : Json) : Option (List (Nat × Epic)) :=
  match j with
  | Json.obj fs => mapMO decodeEpicEntry fs
  | _ => none

def encodeStories (m : List (Nat × Story)) : Json :=
  Json.obj (m.map (fun p => (natRepr p.1, encodeStory p.2)))

/-- One `"id": storyObject` entry of the stories map. -/
def decodeStoryEntry (p : String × Json) : Option (Nat × Story) := do
  let k ← parseU32 p.1
  let st ← decodeStory p.2
  pure (k, st)

def decodeStories (j : Json) : Option (List (Nat × Story)) :=
  match j with
  | Json.obj fs => mapMO decodeStoryEntry fs
  | _ => none

/-- The document `JSONFileDatabase::write` renders into the file
(`serde_json::to_vec`, struct fields in declaration order). -/
def encodeDBState (s : DBState) : Json :=
  Json.obj [(("last_item_id" : String), Json.num s.last_item_id),
            (("epics" : String), encodeEpics s.epics),
            (("stories" : String), encodeStories s.stories)]

/-- The parse `JSONFileDatabase::read` applies to the file's document
(`serde_json::from_reader`); `none` is the `CorruptState` failure. -/
def decodeDBState (j : Json) : Option DBState :=
  match j with
  | Json.obj fs => do
    let lj ← getField fs ("last_item_id")
    let ej ← getField fs ("epics")
    let sj ← getField fs ("stories")
    let last ← decodeNatU32 lj
    let eps ← decodeEpics ej
    let sts ← decodeStories sj
    pure { last_item_id := last, epics := eps, stories := sts }
  | _ => none

/-- `MockDB`: the in-memory backing medium used in tests. -/
structure MockDB where
  last_written_state : DBState
deriving DecidableEq, Repr

/-- `MockDB::new`: starts from the empty aggregate state. -/
def MockDB.new : MockDB :=
  { last_written_state := { last_item_id := 0, epics := [], stories := [] } }

/-- `Database::read` for `MockDB`: clone of the last written state. -/
def MockDB.read (m : MockDB) : DBState :=
  m.last_written_state

/-- `Database::write` for `MockDB`: replaces the stored state. -/
def MockDB.write (_ : MockDB) (s : DBState) : MockDB :=
  { last_written_state := s }

/-- The ids a `DBState` of the persisted shape carries are `u32` values. -/
def boundedIds (s : DBState) : Prop :=
  s.last_item_id < 2 ^ 32 ∧
  (∀ p ∈ s.epics, p.1 < 2 ^ 32 ∧ ∀ i ∈ p.2.stories, i < 2 ^ 32) ∧
  (∀ p ∈ s.stories, p.1 < 2 ^ 32)

instance (s : DBState) : Decidable (boundedIds s) := by
  unfold boundedIds
  infer_instance

/-- The store mutations, as a closed alphabet for reasoning about
operation sequences. -/
inductive Op where
  | createEpic (e : Epic)
  | createStory (st : Story) (epic_id : Nat)
  | deleteEpic (epic_id : Nat)
  | updateEpicStatus (epic_id : Nat) (status : Status)
  | updateStoryStatus (story_id : Nat) (status : Status)

/-- One store call: the state the backing medium holds afterwards,
together with the id a create operation returned (if it succeeded). -/
def applyOp (s : DBState) (op : Op) : DBState × Option Nat :=
  match op with
  | Op.createEpic e =>
    let r := create_epic s e
    (r.1, some r.2)
  | Op.createStory st eid =>
    match create_story s st eid with
    | (s', Except.ok id) => (s', some id)
    | (s', Except.error _) => (s', none)
  | Op.deleteEpic eid => ((delete_epic s eid).1, none)
  | Op.updateEpicStatus eid st => ((update_epic_status s eid st).1, none)
  | Op.updateStoryStatus sid st => ((update_story_status s sid st).1, none)

/-- Run a sequence of store calls; collect the returned ids in order. -/
def runOps (s : DBState) : List Op → DBState × List Nat
  | [] => (s, [])
  | op :: ops =>
    let r := applyOp s op
    let rest := runOps r.1 ops
    (rest.1, r.2.toList ++ rest.2)

/-- The spec's aggregate invariant: the counter dominates every id present
in either map. -/
def idInvariant (s : DBState) : Prop :=
  (∀ p ∈ s.epics, p.1 ≤ s.last_item_id) ∧ (∀ p ∈ s.stories, p.1 ≤ s.last_item_id)

instance (s : DBState) : Decidable (idInvariant s) := by
  unfold idInvariant
  infer_instance

/-- Concrete aggregate state used to instantiate the theorems: one epic
(id 1) owning one story (id 2). -/
def exEpic : Epic :=
  { name := ("E"), description := (""), status := Status.Open, stories := [2] }

def exStory : Story :=
  { name := ("S"), description := (""), status := Status.Open }

def exState : DBState :=
  { last_item_id := 2, epics := [(1, exEpic)], stories := [(2, exStory)] }

/-- Epic with two stories, for the cascade-delete scenario. -/
def exEpic2 : Epic :=
  { name := ("E"), description := (""), status := Status.Open, stories := [2, 3] }

def exState2 : DBState :=
  { last_item_id := 3, epics := [(1, exEpic2)], stories := [(2, exStory), (3, exStory)] }

def emptyState : DBState :=
  { last_item_id := 0, epics := [], stories := [] }

/-- Prompt bundle whose status-pick prompt yields nothing. -/
def promptsNone : Prompts :=
  { create_epic := Epic.new ("a") ("b"), create_story := Story.new ("a") ("b"),
    update_status := none, delete_epic := true, delete_story := true }

/-- Prompt bundle whose status-pick prompt yields `Resolved`. -/
def promptsSome : Prompts :=
  { create_epic := Epic.new ("a") ("b"), create_story := Story.new ("a") ("b"),
    update_status := some Status.Resolved, delete_epic := true, delete_story := true }

def navEx : Navigator := Navigator.new exState

/-- Apply a list of intents in order, keeping the navigator each returns. -/
def runActions (nav : Navigator) (prompts : Prompts) (as : List Action) : Navigator :=
  as.foldl (fun n a => (handle_action n prompts a).1) nav

/-- Operation sequence used to instantiate the id-monotonicity theorem. -/
def wOps : List Op :=
  [Op.createEpic (Epic.new ("a") ("b")), Op.createStory (Story.new ("c") ("d")) 1]

theorem lookupK_insertK_self {α : Type} (m : List (Nat × α)) (k : Nat) (v : α) :
    lookupK (insertK m k v) k = some v := by
  induction m with
  | nil => simp [insertK, lookupK]
  | cons p rest ih =>
    obtain ⟨k', v'⟩ := p
    by_cases h : k' = k
    · subst h
      simp [insertK, lookupK]
    · simp [insertK, lookupK, h, ih]

theorem lookupK_insertK_ne {α : Type} (m : List (Nat × α)) (k k₂ : Nat) (v : α)
    (h : k₂ ≠ k) : lookupK (insertK m k v) k₂ = lookupK m k₂ := by
  induction m with
  | nil => simp [insertK, lookupK, Ne.symm h]
  | cons p rest ih =>
    obtain ⟨k', v'⟩ := p
    by_cases hk : k' = k
    · subst hk
      simp [insertK, lookupK, Ne.symm h]
    · simp only [insertK, lookupK, if_neg hk]
      by_cases hk₂ : k' = k₂ <;> simp [lookupK, hk₂, ih]

theorem lookupK_removeK_self {α : Type} (m : List (Nat × α)) (k : Nat) :
    lookupK (removeK m k) k = none := by
  induction m with
  | nil => simp [removeK, lookupK]
  | cons p rest ih =>
    obtain ⟨k', v'⟩ := p
    by_cases h : k' = k
    · simp [removeK, h, ih]
    · simp [removeK, lookupK, h, ih]

theorem lookupK_removeK_ne {α : Type} (m : List (Nat × α)) (k k₂ : Nat)
    (h : k₂ ≠ k) : lookupK (removeK m k) k₂ = lookupK m k₂ := by
  induction m with
  | nil => simp [removeK, lookupK]
  | cons p rest ih =>
    obtain ⟨k', v'⟩ := p
    by_cases hk : k' = k
    · subst hk
      simp [removeK, lookupK, Ne.symm h, ih]
    · simp only [removeK, if_neg hk]
      by_cases hk₂ : k' = k₂ <;> simp [lookupK, hk₂, ih]

theorem lookupK_updateK_self {α : Type} (m : List (Nat × α)) (k : Nat) (f : α → α) :
    lookupK (updateK m k f) k = (lookupK m k).map f := by
  induction m with
  | nil => simp [updateK, lookupK]
  | cons p rest ih =>
    obtain ⟨k', v'⟩ := p
    by_cases h : k' = k
    · subst h
      simp [updateK, lookupK]
    · simp [updateK, lookupK, h, ih]

theorem lookupK_updateK_ne {α : Type} (m : List (Nat × α)) (k k₂ : Nat) (f : α → α)
    (h : k₂ ≠ k) : lookupK (updateK m k f) k₂ = lookupK m k₂ := by
  induction m with
  | nil => simp [updateK, lookupK]
  | cons p rest ih =>
    obtain ⟨k', v'⟩ := p
    by_cases hk : k' = k
    · subst hk
      simp [updateK, lookupK, Ne.symm h, ih]
    · simp only [updateK, if_neg hk]
      by_cases hk₂ : k' = k₂ <;> simp [lookupK, hk₂, ih]

theorem mem_insertK {α : Type} {m : List (Nat × α)} {k : Nat} {v : α} {p : Nat × α}
    (h : p ∈ insertK m k v) : p ∈ m ∨ p = (k, v) := by
  induction m with
  | nil =>
    simp [insertK] at h
    exact Or.inr h
  | cons q rest ih =>
    obtain ⟨k', v'⟩ := q
    by_cases hk : k' = k
    · subst hk
      simp [insertK] at h
      rcases h with h | h
      · exact Or.inr h
      · exact Or.inl (List.mem_cons_of_mem _ h)
    · simp only [insertK, if_neg hk, List.mem_cons] at h
      rcases h with h | h
      · exact Or.inl (h ▸ List.mem_cons_self _ _)
      · rcases ih h with h' | h'
        · exact Or.inl (List.mem_cons_of_mem _ h')
        · exact Or.inr h'

theorem mem_removeK {α : Type} {m : List (Nat × α)} {k : Nat} {p : Nat × α}
    (h : p ∈ removeK m k) : p ∈ m := by
  induction m with
  | nil => simp [removeK] at h
  | cons q rest ih =>
    obtain ⟨k', v'⟩ := q
    by_cases hk : k' = k
    · simp only [removeK, if_pos hk] at h
      exact List.mem_cons_of_mem _ (ih h)
    · simp only [removeK, if_neg hk, List.mem_cons] at h
      rcases h with h | h
      · exact h ▸ List.mem_cons_self _ _
      · exact List.mem_cons_of_mem _ (ih h)

theorem fst_mem_updateK {α : Type} {m : List (Nat × α)} {k : Nat} {f : α → α}
    {p : Nat × α} (h : p ∈ updateK m k f) : ∃ q ∈ m, p.1 = q.1 := by
  induction m with
  | nil => simp [updateK] at h
  | cons q rest ih =>
    obtain ⟨k', v'⟩ := q
    by_cases hk : k' = k
    · simp only [updateK, if_pos hk, List.mem_cons] at h
      rcases h with h | h
      · exact ⟨(k', v'), List.mem_cons_self _ _, by simp [h]⟩
      · exact ⟨p, List.mem_cons_of_mem _ h, rfl⟩
    · simp only [updateK, if_neg hk, List.mem_cons] at h
      rcases h with h | h
      · exact ⟨(k', v'), List.mem_cons_self _ _, by simp [h]⟩
      · obtain ⟨q', hq', hfst⟩ := ih h
        exact ⟨q', List.mem_cons_of_mem _ hq', hfst⟩

theorem mem_foldl_removeK {α : Type} {l : List Nat} :
    ∀ {m : List (Nat × α)} {p : Nat × α},
      p ∈ l.foldl (fun acc sid => removeK acc sid) m → p ∈ m := by
  induction l with
  | nil =>
    intro m p h
    simpa using h
  | cons x xs ih =>
    intro m p h
    simp only [List.foldl_cons] at h
    exact mem_removeK (ih h)

theorem char_digit_toNat {d : Nat} (h : d < 10) :
    (Char.ofNat (48 + d)).toNat = 48 + d := by
  interval_cases d <;> decide

theorem char_digit_isDigit {d : Nat} (h : d < 10) :
    (Char.ofNat (48 + d)).isDigit = true := by
  interval_cases d <;> decide

theorem isDigit_ne_plus {c : Char} (h : c.isDigit = true) : ¬c = '+' := by
  intro he
  subst he
  exact absurd h (by decide)

theorem natToDigits_ne_nil (n : Nat) : natToDigits n ≠ [] := by
  rw [natToDigits]
  split
  · simp
  · simp

theorem natToDigits_all_isDigit (n : Nat) :
    (natToDigits n).all Char.isDigit = true := by
  induction n using Nat.strong_induction_on with
  | _ n ih =>
    rw [natToDigits]
    split
    · next h =>
      simp [char_digit_isDigit h]
    · next h =>
      have hd : n / 10 < n := Nat.div_lt_self (by omega) (by omega)
      have hm : n % 10 < 10 := Nat.mod_lt _ (by omega)
      simp [List.all_append, ih _ hd, char_digit_isDigit hm]

theorem foldl_natToDigits (n : Nat) :
    ∀ acc : Nat,
      (natToDigits n).foldl (fun acc d => acc * 10 + (d.toNat - 48)) acc =
        acc * 10 ^ (natToDigits n).length + n := by
  induction n using Nat.strong_induction_on with
  | _ n ih =>
    intro acc
    rw [natToDigits]
    split
    · next h =>
      simp [char_digit_toNat h]
    · next h =>
      have hd : n / 10 < n := Nat.div_lt_self (by omega) (by omega)
      have hm : n % 10 < 10 := Nat.mod_lt _ (by omega)
      rw [List.foldl_append, ih _ hd acc]
      simp only [List.foldl_cons, List.foldl_nil, List.length_append, List.length_cons,
        List.length_nil, char_digit_toNat hm]
      have hn : n / 10 * 10 + n % 10 = n := by omega
      rw [pow_succ]
      ring_nf
      omega

theorem parseU32_natRepr (n : Nat) (h : n < 2 ^ 32) :
    parseU32 (natRepr n) = some n := by
  have h1 : natToDigits n ≠ [] := natToDigits_ne_nil n
  have h2 : (natToDigits n).all Char.isDigit = true := natToDigits_all_isDigit n
  have h3 : (natToDigits n).foldl (fun acc d => acc * 10 + (d.toNat - 48)) 0 = n := by
    rw [foldl_natToDigits n 0]
    simp
  obtain ⟨c, rest, hcr⟩ := List.exists_cons_of_ne_nil h1
  have hdata : (natRepr n).data = natToDigits n := rfl
  have hcd : c.isDigit = true := by
    rw [hcr, List.all_cons] at h2
    exact (Bool.and_eq_true_iff.mp h2).1
  rw [parseU32, hdata, hcr]
  simp only [if_neg (isDigit_ne_plus hcd)]
  rw [← hcr]
  simp [h1, h2, h3]
  omega

theorem decodeStatus_encodeStatus (st : Status) :
    decodeStatus (encodeStatus st) = some st := by
  cases st <;> rfl

theorem mapM_decodeNatU32 (l : List Nat) (h : ∀ i ∈ l, i < 2 ^ 32) :
    mapMO decodeNatU32 (l.map Json.num) = some l := by
  induction l with
  | nil => rfl
  | cons x xs ih =>
    have hx : decodeNatU32 (Json.num x) = some x := by
      have hb : x < 2 ^ 32 := h x (List.mem_cons_self _ _)
      simp [decodeNatU32]
      omega
    have hxs := ih (fun i hi => h i (List.mem_cons_of_mem _ hi))
    simp [mapMO, hx, hxs]

theorem decodeEpic_encodeEpic (e : Epic) (h : ∀ i ∈ e.stories, i < 2 ^ 32) :
    decodeEpic (encodeEpic e) = some e := by
  simp [decodeEpic, encodeEpic, getField, decodeStatus_encodeStatus,
    mapM_decodeNatU32 e.stories h]

theorem decodeStory_encodeStory (st : Story) :
    decodeStory (encodeStory st) = some st := by
  simp [decodeStory, encodeStory, getField, decodeStatus_encodeStatus]

theorem decodeEpics_encodeEpics (m : List (Nat × Epic))
    (h : ∀ p ∈ m, p.1 < 2 ^ 32 ∧ ∀ i ∈ p.2.stories, i < 2 ^ 32) :
    decodeEpics (encodeEpics m) = some m := by
  induction m with
  | nil => rfl
  | cons p rest ih =>
    obtain ⟨hp1, hp2⟩ := h p (List.mem_cons_self _ _)
    have hrest := ih (fun q hq => h q (List.mem_cons_of_mem _ hq))
    have hentry : decodeEpicEntry (natRepr p.1, encodeEpic p.2) = some p := by
      simp [decodeEpicEntry, parseU32_natRepr p.1 hp1, decodeEpic_encodeEpic p.2 hp2]
    simp only [decodeEpics, encodeEpics, List.map_cons] at hrest ⊢
    simp [mapMO, hentry, hrest]

theorem decodeStories_encodeStories (m : List (Nat × Story))
    (h : ∀ p ∈ m, p.1 < 2 ^ 32) :
    decodeStories (encodeStories m) = some m := by
  induction m with
  | nil => rfl
  | cons p rest ih =>
    have hp := h p (List.mem_cons_self _ _)
    have hrest := ih (fun q hq => h q (List.mem_cons_of_mem _ hq))
    have hentry : decodeStoryEntry (natRepr p.1, encodeStory p.2) = some p := by
      simp [decodeStoryEntry, parseU32_natRepr p.1 hp, decodeStory_encodeStory p.2]
    simp only [decodeStories, encodeStories, List.map_cons] at hrest ⊢
    simp [mapMO, hentry, hrest]

theorem decodeDBState_encodeDBState (s : DBState) (h : boundedIds s) :
    decodeDBState (encodeDBState s) = some s := by
  obtain ⟨h1, h2, h3⟩ := h
  have h1' : s.last_item_id < 4294967296 := by omega
  simp [decodeDBState, encodeDBState, getField, decodeNatU32, h1',
    decodeEpics_encodeEpics s.epics h2, decodeStories_encodeStories s.stories h3]

theorem create_epic_invariant (s : DBState) (e : Epic) (h : idInvariant s) :
    idInvariant (create_epic s e).1 := by
  obtain ⟨he, hs⟩ := h
  constructor
  · intro p hp
    simp only [create_epic] at hp
    rcases mem_insertK hp with h' | h'
    · exact le_trans (he p h') (Nat.le_succ _)
    · simp [create_epic, h']
  · intro p hp
    simp only [create_epic] at hp
    exact le_trans (hs p hp) (Nat.le_succ _)

theorem create_story_invariant (s : DBState) (st : Story) (eid : Nat)
    (h : idInvariant s) : idInvariant (create_story s st eid).1 := by
  obtain ⟨he, hs⟩ := h
  rcases heq : lookupK s.epics eid with _ | ep
  · simpa [create_story, heq] using ⟨he, hs⟩
  · constructor
    · intro p hp
      simp only [create_story, heq] at hp
      obtain ⟨q, hq, hfst⟩ := fst_mem_updateK hp
      simp only [create_story, heq]
      exact le_trans (hfst ▸ he q hq) (Nat.le_succ _)
    · intro p hp
      simp only [create_story, heq] at hp ⊢
      rcases mem_insertK hp with h' | h'
      · exact le_trans (hs p h') (Nat.le_succ _)
      · simp [h']

theorem delete_epic_invariant (s : DBState) (eid : Nat) (h : idInvariant s) :
    idInvariant (delete_epic s eid).1 := by
  obtain ⟨he, hs⟩ := h
  rcases heq : lookupK s.epics eid with _ | ep
  · simpa [delete_epic, heq] using ⟨he, hs⟩
  · constructor
    · intro p hp
      simp only [delete_epic, heq] at hp ⊢
      exact he p (mem_removeK hp)
    · intro p hp
      simp only [delete_epic, heq] at hp ⊢
      exact hs p (mem_foldl_removeK hp)

theorem update_epic_status_invariant (s : DBState) (eid : Nat) (st : Status)
    (h : idInvariant s) : idInvariant (update_epic_status s eid st).1 := by
  obtain ⟨he, hs⟩ := h
  rcases heq : lookupK s.epics eid with _ | ep
  · simpa [update_epic_status, heq] using ⟨he, hs⟩
  · constructor
    · intro p hp
      simp only [update_epic_status, heq] at hp ⊢
      obtain ⟨q, hq, hfst⟩ := fst_mem_updateK hp
      exact hfst ▸ he q hq
    · intro p hp
      simp only [update_epic_status, heq] at hp ⊢
      exact hs p hp

theorem update_story_status_invariant (s : DBState) (sid : Nat) (st : Status)
    (h : idInvariant s) : idInvariant (update_story_status s sid st).1 := by
  obtain ⟨he, hs⟩ := h
  rcases heq : lookupK s.stories sid with _ | stry
  · simpa [update_story_status, heq] using ⟨he, hs⟩
  · constructor
    · intro p hp
      simp only [update_story_status, heq] at hp ⊢
      exact he p hp
    · intro p hp
      simp only [update_story_status, heq] at hp ⊢
      obtain ⟨q, hq, hfst⟩ := fst_mem_updateK hp
      exact hfst ▸ hs q hq

theorem applyOp_invariant (s : DBState) (op : Op) (h : idInvariant s) :
    idInvariant (applyOp s op).1 := by
  cases op with
  | createEpic e => exact create_epic_invariant s e h
  | createStory st eid =>
    have := create_story_invariant s st eid h
    simp only [applyOp]
    rcases hr : create_story s st eid with ⟨s1, r⟩
    cases r <;> simpa [hr] using this
  | deleteEpic eid => exact delete_epic_invariant s eid h
  | updateEpicStatus eid st => exact update_epic_status_invariant s eid st h
  | updateStoryStatus sid st => exact update_story_status_invariant s sid st h

theorem applyOp_last_le (s : DBState) (op : Op) :
    s.last_item_id ≤ (applyOp s op).1.last_item_id := by
  cases op with
  | createEpic e => simp [applyOp, create_epic]
  | createStory st eid =>
    simp only [applyOp]
    rcases heq : lookupK s.epics eid with _ | ep
    · simp [create_story, heq]
    · simp [create_story, heq]
  | deleteEpic eid =>
    rcases heq : lookupK s.epics eid with _ | ep <;> simp [applyOp, delete_epic, heq]
  | updateEpicStatus eid st =>
    rcases heq : lookupK s.epics eid with _ | ep <;> simp [applyOp, update_epic_status, heq]
  | updateStoryStatus sid st =>
    rcases heq : lookupK s.stories sid with _ | stry <;>
      simp [applyOp, update_story_status, heq]

theorem applyOp_ret_eq (s : DBState) (op : Op) (id : Nat)
    (h : (applyOp s op).2 = some id) :
    id = s.last_item_id + 1 ∧ (applyOp s op).1.last_item_id = id := by
  cases op with
  | createEpic e =>
    simp [applyOp, create_epic] at h ⊢
    omega
  | createStory st eid =>
    simp only [applyOp] at h ⊢
    rcases heq : lookupK s.epics eid with _ | ep
    · simp [create_story, heq] at h
    · simp [create_story, heq] at h ⊢
      omega
  | deleteEpic eid => simp [applyOp] at h
  | updateEpicStatus eid st => simp [applyOp] at h
  | updateStoryStatus sid st => simp [applyOp] at h

theorem runOps_invariant (ops : List Op) :
    ∀ s : DBState, idInvariant s → idInvariant (runOps s ops).1 := by
  induction ops with
  | nil =>
    intro s h
    simpa [runOps] using h
  | cons op ops ih =>
    intro s h
    simp only [runOps]
    exact ih _ (applyOp_invariant s op h)

theorem runOps_monotone (ops : List Op) :
    ∀ s : DBState,
      s.last_item_id ≤ (runOps s ops).1.last_item_id ∧
      (∀ id ∈ (runOps s ops).2,
        s.last_item_id < id ∧ id ≤ (runOps s ops).1.last_item_id) ∧
      (runOps s ops).2.Pairwise (· < ·) := by
  induction ops with
  | nil =>
    intro s
    simp [runOps]
  | cons op ops ih =>
    intro s
    obtain ⟨ih1, ih2, ih3⟩ := ih (applyOp s op).1
    have hle := applyOp_last_le s op
    simp only [runOps]
    refine ⟨le_trans hle ih1, ?_, ?_⟩
    · intro id hid
      rw [List.mem_append] at hid
      rcases hid with hid | hid
      · rcases hr : (applyOp s op).2 with _ | rid
        · rw [hr] at hid
          simp at hid
        · rw [hr] at hid
          simp at hid
          subst hid
          obtain ⟨hq1, hq2⟩ := applyOp_ret_eq s op id hr
          constructor
          · omega
          · omega
      · obtain ⟨hlt, hle2⟩ := ih2 id hid
        exact ⟨by omega, hle2⟩
    · rcases hr : (applyOp s op).2 with _ | rid
      · simpa using ih3
      · simp only [Option.toList_some, List.singleton_append]
        rw [List.pairwise_cons]
        refine ⟨?_, ih3⟩
        intro j hj
        obtain ⟨hq1, hq2⟩ := applyOp_ret_eq s op rid hr
        obtain ⟨hlt, _⟩ := ih2 j hj
        omega

theorem create_story_error_state (s : DBState) (story : Story) (eid : Nat) (e : DBError)
    (h : (create_story s story eid).2 = Except.error e) : (create_story s story eid).1 = s := by
  rcases heq : lookupK s.epics eid with _ | ep <;> simp [create_story, heq] at h ⊢

theorem delete_epic_error_state (s : DBState) (eid : Nat) (e : DBError)
    (h : (delete_epic s eid).2 = Except.error e) : (delete_epic s eid).1 = s := by
  rcases heq : lookupK s.epics eid with _ | ep <;> simp [delete_epic, heq] at h ⊢

theorem update_epic_status_error_state (s : DBState) (eid : Nat) (st : Status) (e : DBError)
    (h : (update_epic_status s eid st).2 = Except.error e) :
    (update_epic_status s eid st).1 = s := by
  rcases heq : lookupK s.epics eid with _ | ep <;> simp [update_epic_status, heq] at h ⊢

theorem update_story_status_error_state (s : DBState) (sid : Nat) (st : Status) (e : DBError)
    (h : (update_story_status s sid st).2 = Except.error e) :
    (update_story_status s sid st).1 = s := by
  rcases heq : lookupK s.stories sid with _ | stry <;> simp [update_story_status, heq] at h ⊢

theorem delete_story_error_state (s : DBState) (eid sid : Nat) (e : DBError)
    (h : (delete_story s eid sid).2 = Except.error e) : (delete_story s eid sid).1 = s := by
  rcases heq : lookupK s.epics eid with _ | ep <;> simp [delete_story, heq] at h ⊢

/-- Claim C1: the Store's `delete_story(epicId, storyId)` removes the story
with `storyId` from the stories map and removes `storyId` from the named
epic's `stories` list, then writes; it fails with `EpicNotFound` when the
epic with `epicId` is absent, and the story's absence from the epic's list
is tolerated: once the epic exists the call succeeds for every `storyId`. -/
theorem claim_C1_delete_story (s : DBState) (eid sid : Nat) :
    (lookupK s.epics eid = none →
      delete_story s eid sid = (s, Except.error DBError.EpicNotFound)) ∧
    (∀ ep, lookupK s.epics eid = some ep →
      (delete_story s eid sid).2 = Except.ok () ∧
      lookupK (delete_story s eid sid).1.stories sid = none ∧
      (∀ k, k ≠ sid → lookupK (delete_story s eid sid).1.stories k = lookupK s.stories k) ∧
      lookupK (delete_story s eid sid).1.epics eid =
        some { ep with stories := ep.stories.filter (fun i => i ≠ sid) } ∧
      (∀ k, k ≠ eid → lookupK (delete_story s eid sid).1.epics k = lookupK s.epics k) ∧
      (delete_story s eid sid).1.last_item_id = s.last_item_id) := by
  constructor
  · intro habs
    simp [delete_story, habs]
  · intro ep hep
    refine ⟨?_, ?_, ?_, ?_, ?_, ?_⟩ <;> simp only [delete_story, hep]
    · exact lookupK_removeK_self _ _
    · intro k hk
      exact lookupK_removeK_ne _ _ _ hk
    · rw [lookupK_updateK_self, hep]
      rfl
    · intro k hk
      exact lookupK_updateK_ne _ _ _ _ hk

theorem claim_C1_delete_story_witness :
    delete_story exState 5 2 = (exState, Except.error DBError.EpicNotFound) ∧
    (delete_story exState 1 2).2 = Except.ok () ∧
    lookupK (delete_story exState 1 2).1.stories 2 = none ∧
    lookupK (delete_story exState 1 2).1.epics 1 =
      some { exEpic with stories := exEpic.stories.filter (fun i => i ≠ 2) } :=
  ⟨(claim_C1_delete_story exState 5 2).1 (by decide),
   ((claim_C1_delete_story exState 1 2).2 exEpic (by decide)).1,
   ((claim_C1_delete_story exState 1 2).2 exEpic (by decide)).2.1,
   ((claim_C1_delete_story exState 1 2).2 exEpic (by decide)).2.2.2.1⟩

/-- Claim C2: from any state satisfying the id invariant (`last_item_id`
dominates every id in either map), every sequence of Store operations
preserves the invariant; `create_epic` and `create_story` assign the new id
`last_item_id + 1`; and across any operation sequence the returned ids are
strictly increasing, hence globally unique over the shared id space. -/
theorem claim_C2_ids_monotone_unique (s : DBState) (ops : List Op) (h : idInvariant s) :
    idInvariant (runOps s ops).1 ∧
    (∀ e, (create_epic s e).2 = s.last_item_id + 1) ∧
    (∀ st eid r, (create_story s st eid).2 = Except.ok r → r = s.last_item_id + 1) ∧
    (runOps s ops).2.Pairwise (· < ·) := by
  refine ⟨runOps_invariant ops s h, fun e => rfl, ?_, (runOps_monotone ops s).2.2⟩
  intro st eid r hr
  rcases heq : lookupK s.epics eid with _ | ep
  · simp [create_story, heq] at hr
  · simp [create_story, heq] at hr
    omega

theorem claim_C2_ids_monotone_unique_witness :
    idInvariant emptyState ∧
    idInvariant (runOps emptyState wOps).1 ∧
    (runOps emptyState wOps).2.Pairwise (· < ·) :=
  ⟨by decide,
   (claim_C2_ids_monotone_unique emptyState wOps (by decide)).1,
   (claim_C2_ids_monotone_unique emptyState wOps (by decide)).2.2.2⟩

/-- Claim C3: deleting an epic whose `stories` list is `[s1, s2]` removes
`s1` and `s2` from the stories map (ids absent from the stories map are
silently ignored: the call succeeds with no condition on them) and removes
the epic, leaves `last_item_id` untouched, leaves unrelated stories in
place, and a second `delete_epic` of the same id fails with
`EpicNotFound`. -/
theorem claim_C3_delete_epic_cascade (s : DBState) (e s1 s2 : Nat) (ep : Epic)
    (hep : lookupK s.epics e = some ep) (hst : ep.stories = [s1, s2]) :
    (delete_epic s e).2 = Except.ok () ∧
    lookupK (delete_epic s e).1.stories s1 = none ∧
    lookupK (delete_epic s e).1.stories s2 = none ∧
    (∀ k, k ≠ s1 → k ≠ s2 → lookupK (delete_epic s e).1.stories k = lookupK s.stories k) ∧
    lookupK (delete_epic s e).1.epics e = none ∧
    (delete_epic s e).1.last_item_id = s.last_item_id ∧
    (delete_epic (delete_epic s e).1 e).2 = Except.error DBError.EpicNotFound := by
  have hstate : (delete_epic s e).1 =
      { s with stories := removeK (removeK s.stories s1) s2, epics := removeK s.epics e } := by
    simp [delete_epic, hep, hst]
  refine ⟨by simp [delete_epic, hep], ?_, ?_, ?_, ?_, ?_, ?_⟩
  · rw [hstate]
    show lookupK (removeK (removeK s.stories s1) s2) s1 = none
    by_cases h12 : s1 = s2
    · subst h12
      exact lookupK_removeK_self _ _
    · rw [lookupK_removeK_ne _ _ _ h12]
      exact lookupK_removeK_self _ _
  · rw [hstate]
    exact lookupK_removeK_self _ _
  · intro k hk1 hk2
    rw [hstate]
    show lookupK (removeK (removeK s.stories s1) s2) k = lookupK s.stories k
    rw [lookupK_removeK_ne _ _ _ hk2, lookupK_removeK_ne _ _ _ hk1]
  · rw [hstate]
    exact lookupK_removeK_self _ _
  · rw [hstate]
  · rw [hstate]
    simp [delete_epic, lookupK_removeK_self]

theorem claim_C3_delete_epic_cascade_witness :
    (delete_epic exState2 1).2 = Except.ok () ∧
    lookupK (delete_epic exState2 1).1.stories 2 = none ∧
    lookupK (delete_epic exState2 1).1.stories 3 = none ∧
    lookupK (delete_epic exState2 1).1.epics 1 = none ∧
    (delete_epic exState2 1).1.last_item_id = exState2.last_item_id ∧
    (delete_epic (delete_epic exState2 1).1 1).2 = Except.error DBError.EpicNotFound :=
  let h := claim_C3_delete_epic_cascade exState2 1 2 3 exEpic2 (by decide) (by decide)
  ⟨h.1, h.2.1, h.2.2.1, h.2.2.2.2.1, h.2.2.2.2.2.1, h.2.2.2.2.2.2⟩

/-- Claim C4: `create_story` on an absent epic id fails with `EpicNotFound`
and leaves the aggregate state (counter and both maps) entirely unchanged;
on a present epic it returns `last_item_id + 1`, inserts the story under
that id and appends the id to the parent epic's `stories` list. -/
theorem claim_C4_create_story (s : DBState) (story : Story) (eid : Nat) :
    (lookupK s.epics eid = none →
      (create_story s story eid).2 = Except.error DBError.EpicNotFound ∧
      (create_story s story eid).1.last_item_id = s.last_item_id ∧
      (create_story s story eid).1.epics = s.epics ∧
      (create_story s story eid).1.stories = s.stories) ∧
    (∀ ep, lookupK s.epics eid = some ep →
      (create_story s story eid).2 = Except.ok (s.last_item_id + 1) ∧
      lookupK (create_story s story eid).1.stories (s.last_item_id + 1) = some story ∧
      lookupK (create_story s story eid).1.epics eid =
        some { ep with stories := ep.stories ++ [s.last_item_id + 1] } ∧
      (create_story s story eid).1.last_item_id = s.last_item_id + 1) := by
  constructor
  · intro habs
    refine ⟨?_, ?_, ?_, ?_⟩ <;> simp [create_story, habs]
  · intro ep hep
    refine ⟨?_, ?_, ?_, ?_⟩ <;> simp only [create_story, hep]
    · exact lookupK_insertK_self _ _ _
    · rw [lookupK_updateK_self, hep]
      rfl

theorem claim_C4_create_story_witness :
    (create_story exState exStory 5).2 = Except.error DBError.EpicNotFound ∧
    (create_story exState exStory 5).1.epics = exState.epics ∧
    (create_story exState exStory 1).2 = Except.ok 3 ∧
    lookupK (create_story exState exStory 1).1.stories 3 = some exStory ∧
    lookupK (create_story exState exStory 1).1.epics 1 =
      some { exEpic with stories := exEpic.stories ++ [3] } :=
  ⟨((claim_C4_create_story exState exStory 5).1 (by decide)).1,
   ((claim_C4_create_story exState exStory 5).1 (by decide)).2.2.1,
   ((claim_C4_create_story exState exStory 1).2 exEpic (by decide)).1,
   ((claim_C4_create_story exState exStory 1).2 exEpic (by decide)).2.1,
   ((claim_C4_create_story exState exStory 1).2 exEpic (by decide)).2.2.1⟩

/-- Claim C5: any Store failure during `handle_action` is propagated to the
caller (the arm surfaces the operation's error as the call's result), and a
failed call leaves the navigator — page stack and database alike — exactly
as it was; in particular for `DeleteEpic`/`DeleteStory` the pop of the top
screen happens only after the Store call succeeds. -/
theorem claim_C5_error_propagation (nav : Navigator) (prompts : Prompts) :
    (∀ a e, (handle_action nav prompts a).2 = some e → (handle_action nav prompts a).1 = nav) ∧
    (∀ eid st e, prompts.update_status = some st →
      (update_epic_status nav.db eid st).2 = Except.error e →
      (handle_action nav prompts (Action.UpdateEpicStatus eid)).2 = some e) ∧
    (∀ sid st e, prompts.update_status = some st →
      (update_story_status nav.db sid st).2 = Except.error e →
      (handle_action nav prompts (Action.UpdateStoryStatus sid)).2 = some e) ∧
    (∀ eid e, (create_story nav.db prompts.create_story eid).2 = Except.error e →
      (handle_action nav prompts (Action.CreateStory eid)).2 = some e) ∧
    (∀ eid e, prompts.delete_epic = true →
      (delete_epic nav.db eid).2 = Except.error e →
      (handle_action nav prompts (Action.DeleteEpic eid)).2 = some e) ∧
    (∀ eid sid e, prompts.delete_story = true →
      (delete_story nav.db eid sid).2 = Except.error e →
      (handle_action nav prompts (Action.DeleteStory eid sid)).2 = some e) := by
  refine ⟨?_, ?_, ?_, ?_, ?_, ?_⟩
  · intro a e h
    cases a with
    | NavigateToEpicDetail eid => simp [handle_action] at h
    | NavigateToStoryDetail eid sid => simp [handle_action] at h
    | NavigateToPreviousPage => simp [handle_action] at h
    | CreateEpic => simp [handle_action] at h
    | Exit => simp [handle_action] at h
    | UpdateEpicStatus eid =>
      rcases hu : prompts.update_status with _ | st
      · simp [handle_action, hu] at h
      · rcases hr : update_epic_status nav.db eid st with ⟨db2, r⟩
        cases r with
        | ok u => simp [handle_action, hu, hr] at h
        | error e2 =>
          have hdb : db2 = nav.db := by
            have := update_epic_status_error_state nav.db eid st e2 (by rw [hr])
            rw [hr] at this
            exact this
          simp [handle_action, hu, hr, hdb]
    | UpdateStoryStatus sid =>
      rcases hu : prompts.update_status with _ | st
      · simp [handle_action, hu] at h
      · rcases hr : update_story_status nav.db sid st with ⟨db2, r⟩
        cases r with
        | ok u => simp [handle_action, hu, hr] at h
        | error e2 =>
          have hdb : db2 = nav.db := by
            have := update_story_status_error_state nav.db sid st e2 (by rw [hr])
            rw [hr] at this
            exact this
          simp [handle_action, hu, hr, hdb]
    | CreateStory eid =>
      rcases hr : create_story nav.db prompts.create_story eid with ⟨db2, r⟩
      cases r with
      | ok u => simp [handle_action, hr] at h
      | error e2 =>
        have hdb : db2 = nav.db := by
          have := create_story_error_state nav.db prompts.create_story eid e2 (by rw [hr])
          rw [hr] at this
          exact this
        simp [handle_action, hr, hdb]
    | DeleteEpic eid =>
      rcases hc : prompts.delete_epic with _ | _
      · simp [handle_action, hc] at h
      · rcases hr : delete_epic nav.db eid with ⟨db2, r⟩
        cases r with
        | ok u => simp [handle_action, hc, hr] at h
        | error e2 =>
          have hdb : db2 = nav.db := by
            have := delete_epic_error_state nav.db eid e2 (by rw [hr])
            rw [hr] at this
            exact this
          simp [handle_action, hc, hr, hdb]
    | DeleteStory eid sid =>
      rcases hc : prompts.delete_story with _ | _
      · simp [handle_action, hc] at h
      · rcases hr : delete_story nav.db eid sid with ⟨db2, r⟩
        cases r with
        | ok u => simp [handle_action, hc, hr] at h
        | error e2 =>
          have hdb : db2 = nav.db := by
            have := delete_story_error_state nav.db eid sid e2 (by rw [hr])
            rw [hr] at this
            exact this
          simp [handle_action, hc, hr, hdb]
  · intro eid st e hu hr
    rcases hq : update_epic_status nav.db eid st with ⟨db2, r⟩
    rw [hq] at hr
    cases r with
    | ok u => simp at hr
    | error e2 =>
      simp at hr
      subst hr
      simp [handle_action, hu, hq]
  · intro sid st e hu hr
    rcases hq : update_story_status nav.db sid st with ⟨db2, r⟩
    rw [hq] at hr
    cases r with
    | ok u => simp at hr
    | error e2 =>
      simp at hr
      subst hr
      simp [handle_action, hu, hq]
  · intro eid e hr
    rcases hq : create_story nav.db prompts.create_story eid with ⟨db2, r⟩
    rw [hq] at hr
    cases r with
    | ok u => simp at hr
    | error e2 =>
      simp at hr
      subst hr
      simp [handle_action, hq]
  · intro eid e hc hr
    rcases hq : delete_epic nav.db eid with ⟨db2, r⟩
    rw [hq] at hr
    cases r with
    | ok u => simp at hr
    | error e2 =>
      simp at hr
      subst hr
      simp [handle_action, hc, hq]
  · intro eid sid e hc hr
    rcases hq : delete_story nav.db eid sid with ⟨db2, r⟩
    rw [hq] at hr
    cases r with
    | ok u => simp at hr
    | error e2 =>
      simp at hr
      subst hr
      simp [handle_action, hc, hq]

theorem claim_C5_error_propagation_witness :
    (handle_action navEx promptsSome (Action.DeleteEpic 5)).2 = some DBError.EpicNotFound ∧
    (handle_action navEx promptsSome (Action.DeleteEpic 5)).1 = navEx :=
  ⟨(claim_C5_error_propagation navEx promptsSome).2.2.2.2.1 5 DBError.EpicNotFound
     (by decide) (by rfl),
   (claim_C5_error_propagation navEx promptsSome).1 (Action.DeleteEpic 5)
     DBError.EpicNotFound (by decide)⟩

/-- Claim C6: the navigator starts with exactly the Home screen; from
`[Home]`, `NavigateToEpicDetail 1` yields `[Home, EpicDetail 1]`, then
`NavigateToStoryDetail 1 2` yields `[Home, EpicDetail 1, StoryDetail 1 2]`;
two `NavigateToPreviousPage` return to `[Home]`, a third empties the stack
with no error, a fourth on the empty stack is a no-op (still no error), and
`Exit` clears the whole stack. -/
theorem claim_C6_navigation_scenario :
    (Navigator.new exState).pages = [PageKind.HomePage] ∧
    (runActions (Navigator.new exState) promptsNone
        [Action.NavigateToEpicDetail 1]).pages =
      [PageKind.HomePage, PageKind.EpicDetail 1] ∧
    (runActions (Navigator.new exState) promptsNone
        [Action.NavigateToEpicDetail 1, Action.NavigateToStoryDetail 1 2]).pages =
      [PageKind.HomePage, PageKind.EpicDetail 1, PageKind.StoryDetail 1 2] ∧
    (runActions (Navigator.new exState) promptsNone
        [Action.NavigateToEpicDetail 1, Action.NavigateToStoryDetail 1 2,
         Action.NavigateToPreviousPage, Action.NavigateToPreviousPage]).pages =
      [PageKind.HomePage] ∧
    (runActions (Navigator.new exState) promptsNone
        [Action.NavigateToEpicDetail 1, Action.NavigateToStoryDetail 1 2,
         Action.NavigateToPreviousPage, Action.NavigateToPreviousPage,
         Action.NavigateToPreviousPage]).pages = [] ∧
    handle_action (runActions (Navigator.new exState) promptsNone
        [Action.NavigateToEpicDetail 1, Action.NavigateToStoryDetail 1 2,
         Action.NavigateToPreviousPage, Action.NavigateToPreviousPage,
         Action.NavigateToPreviousPage]) promptsNone Action.NavigateToPreviousPage =
      (runActions (Navigator.new exState) promptsNone
        [Action.NavigateToEpicDetail 1, Action.NavigateToStoryDetail 1 2,
         Action.NavigateToPreviousPage, Action.NavigateToPreviousPage,
         Action.NavigateToPreviousPage], none) ∧
    (handle_action (runActions (Navigator.new exState) promptsNone
        [Action.NavigateToEpicDetail 1, Action.NavigateToStoryDetail 1 2])
      promptsNone Action.Exit).1.pages = [] := by
  decide

/-- Claim C7: `EpicDetail`'s input interpreter maps `"p"` to NavigateBack,
`"u"` to UpdateEpicStatus, `"d"` to DeleteEpic and `"c"` to CreateStory —
each bound to the screen's own epic id, whatever the store contains — and
any other input is parsed as an integer id, yielding
`NavigateToStoryDetail` exactly when the id names an existing story and no
intent otherwise (including malformed numeric input). -/
theorem claim_C7_epic_detail_interpret (eid : Nat) (db : DBState) (input : String) :
    EpicDetail.handle_input eid db ("p") = some Action.NavigateToPreviousPage ∧
    EpicDetail.handle_input eid db ("u") = some (Action.UpdateEpicStatus eid) ∧
    EpicDetail.handle_input eid db ("d") = some (Action.DeleteEpic eid) ∧
    EpicDetail.handle_input eid db ("c") = some (Action.CreateStory eid) ∧
    (input ≠ ("p") → input ≠ ("u") → input ≠ ("d") → input ≠ ("c") →
      (parseU32 input = none → EpicDetail.handle_input eid db input = none) ∧
      (∀ sid, parseU32 input = some sid →
        (containsK db.stories sid = true →
          EpicDetail.handle_input eid db input = some (Action.NavigateToStoryDetail eid sid)) ∧
        (containsK db.stories sid = false →
          EpicDetail.handle_input eid db input = none))) := by
  refine ⟨by simp [EpicDetail.handle_input], by simp [EpicDetail.handle_input],
    by simp [EpicDetail.handle_input], by simp [EpicDetail.handle_input], ?_⟩
  intro h1 h2 h3 h4
  constructor
  · intro hp
    simp [EpicDetail.handle_input, h1, h2, h3, h4, hp]
  · intro sid hp
    constructor
    · intro hc
      simp [EpicDetail.handle_input, h1, h2, h3, h4, hp, hc]
    · intro hc
      simp [EpicDetail.handle_input, h1, h2, h3, h4, hp, hc]

theorem claim_C7_epic_detail_interpret_witness :
    EpicDetail.handle_input 1 exState ("d") = some (Action.DeleteEpic 1) ∧
    EpicDetail.handle_input 1 exState ("2") = some (Action.NavigateToStoryDetail 1 2) ∧
    EpicDetail.handle_input 1 exState ("9") = none ∧
    EpicDetail.handle_input 1 exState ("2x") = none :=
  ⟨(claim_C7_epic_detail_interpret 1 exState ("2")).2.2.1,
   (((claim_C7_epic_detail_interpret 1 exState ("2")).2.2.2.2
      (by decide) (by decide) (by decide) (by decide)).2 2 (by decide)).1 (by decide),
   (((claim_C7_epic_detail_interpret 1 exState ("9")).2.2.2.2
      (by decide) (by decide) (by decide) (by decide)).2 9 (by decide)).2 (by decide),
   ((claim_C7_epic_detail_interpret 1 exState ("2x")).2.2.2.2
      (by decide) (by decide) (by decide) (by decide)).1 (by decide)⟩

/-- Claim C8: on `UpdateEpicStatus`/`UpdateStoryStatus`, when the
status-pick prompt yields nothing the navigator (stack and aggregate state)
is completely unchanged and no error arises; when it yields a status, only
the status field of the targeted entity is overwritten — whatever status it
held before — while its other fields, every other entity, the other map and
`last_item_id` stay as they were. -/
theorem claim_C8_update_status_frame (nav : Navigator) (prompts : Prompts) :
    (prompts.update_status = none →
      (∀ eid, handle_action nav prompts (Action.UpdateEpicStatus eid) = (nav, none)) ∧
      (∀ sid, handle_action nav prompts (Action.UpdateStoryStatus sid) = (nav, none))) ∧
    (∀ st, prompts.update_status = some st →
      (∀ eid ep, lookupK nav.db.epics eid = some ep →
        (handle_action nav prompts (Action.UpdateEpicStatus eid)).2 = none ∧
        (handle_action nav prompts (Action.UpdateEpicStatus eid)).1.pages = nav.pages ∧
        lookupK (handle_action nav prompts (Action.UpdateEpicStatus eid)).1.db.epics eid =
          some { ep with status := st } ∧
        (∀ k, k ≠ eid →
          lookupK (handle_action nav prompts (Action.UpdateEpicStatus eid)).1.db.epics k =
            lookupK nav.db.epics k) ∧
        (handle_action nav prompts (Action.UpdateEpicStatus eid)).1.db.stories =
          nav.db.stories ∧
        (handle_action nav prompts (Action.UpdateEpicStatus eid)).1.db.last_item_id =
          nav.db.last_item_id) ∧
      (∀ sid stry, lookupK nav.db.stories sid = some stry →
        (handle_action nav prompts (Action.UpdateStoryStatus sid)).2 = none ∧
        (handle_action nav prompts (Action.UpdateStoryStatus sid)).1.pages = nav.pages ∧
        lookupK (handle_action nav prompts (Action.UpdateStoryStatus sid)).1.db.stories sid =
          some { stry with status := st } ∧
        (∀ k, k ≠ sid →
          lookupK (handle_action nav prompts (Action.UpdateStoryStatus sid)).1.db.stories k =
            lookupK nav.db.stories k) ∧
        (handle_action nav prompts (Action.UpdateStoryStatus sid)).1.db.epics =
          nav.db.epics ∧
        (handle_action nav prompts (Action.UpdateStoryStatus sid)).1.db.last_item_id =
          nav.db.last_item_id)) := by
  constructor
  · intro hu
    constructor
    · intro eid
      simp [handle_action, hu]
    · intro sid
      simp [handle_action, hu]
  · intro st hu
    constructor
    · intro eid ep hep
      have hred : handle_action nav prompts (Action.UpdateEpicStatus eid) =
          ({ nav with db := { nav.db with
              epics := updateK nav.db.epics eid (fun e => { e with status := st }) } }, none) := by
        simp [handle_action, hu, update_epic_status, hep]
      rw [hred]
      refine ⟨rfl, rfl, ?_, ?_, rfl, rfl⟩
      · show lookupK (updateK nav.db.epics eid (fun e => { e with status := st })) eid =
          some { ep with status := st }
        rw [lookupK_updateK_self, hep]
        rfl
      · intro k hk
        show lookupK (updateK nav.db.epics eid (fun e => { e with status := st })) k =
          lookupK nav.db.epics k
        exact lookupK_updateK_ne _ _ _ _ hk
    · intro sid stry hst
      have hred : handle_action nav prompts (Action.UpdateStoryStatus sid) =
          ({ nav with db := { nav.db with
              stories := updateK nav.db.stories sid (fun x => { x with status := st }) } }, none) := by
        simp [handle_action, hu, update_story_status, hst]
      rw [hred]
      refine ⟨rfl, rfl, ?_, ?_, rfl, rfl⟩
      · show lookupK (updateK nav.db.stories sid (fun x => { x with status := st })) sid =
          some { stry with status := st }
        rw [lookupK_updateK_self, hst]
        rfl
      · intro k hk
        show lookupK (updateK nav.db.stories sid (fun x => { x with status := st })) k =
          lookupK nav.db.stories k
        exact lookupK_updateK_ne _ _ _ _ hk

theorem claim_C8_update_status_frame_witness :
    handle_action navEx promptsNone (Action.UpdateEpicStatus 1) = (navEx, none) ∧
    lookupK (handle_action navEx promptsSome (Action.UpdateEpicStatus 1)).1.db.epics 1 =
      some { exEpic with status := Status.Resolved } ∧
    lookupK (handle_action navEx promptsSome (Action.UpdateStoryStatus 2)).1.db.stories 2 =
      some { exStory with status := Status.Resolved } :=
  ⟨((claim_C8_update_status_frame navEx promptsNone).1 (by decide)).1 1,
   (((claim_C8_update_status_frame navEx promptsSome).2 Status.Resolved (by decide)).1
      1 exEpic (by decide)).2.2.1,
   (((claim_C8_update_status_frame navEx promptsSome).2 Status.Resolved (by decide)).2
      2 exStory (by decide)).2.2.1⟩

/-- Claim C9: for every aggregate state of the persisted shape (`u32` ids),
rendering it to the backing document and parsing the document back yields
the original state in all fields, and the in-memory backend's
`write`-then-`read` likewise returns the state unchanged — serialization
round-trips losslessly. -/
theorem claim_C9_roundtrip (s : DBState) (h : boundedIds s) :
    decodeDBState (encodeDBState s) = some s ∧
    ∀ m : MockDB, MockDB.read (MockDB.write m s) = s :=
  ⟨decodeDBState_encodeDBState s h, fun _ => rfl⟩

theorem claim_C9_roundtrip_witness :
    boundedIds exState ∧
    decodeDBState (encodeDBState exState) = some exState ∧
    MockDB.read (MockDB.write MockDB.new exState) = exState :=
  ⟨by decide, (claim_C9_roundtrip exState (by decide)).1,
   (claim_C9_roundtrip exState (by decide)).2 MockDB.new⟩

/-- Claim C10: a newly constructed epic has status `Open` and no stories,
a newly constructed story has status `Open`, and the Store's create
operations install such freshly constructed entities verbatim — so every
epic and story entering the persisted state through them begins its
lifecycle in the `Open` status. -/
theorem claim_C10_new_entities_open (n d : String) (s : DBState) :
    (Epic.new n d).status = Status.Open ∧
    (Epic.new n d).stories = [] ∧
    (Story.new n d).status = Status.Open ∧
    lookupK (create_epic s (Epic.new n d)).1.epics (create_epic s (Epic.new n d)).2 =
      some (Epic.new n d) ∧
    (∀ eid ep, lookupK s.epics eid = some ep →
      lookupK (create_story s (Story.new n d) eid).1.stories (s.last_item_id + 1) =
        some (Story.new n d)) := by
  refine ⟨rfl, rfl, rfl, ?_, ?_⟩
  · show lookupK (insertK s.epics (s.last_item_id + 1) (Epic.new n d)) (s.last_item_id + 1) =
      some (Epic.new n d)
    exact lookupK_insertK_self _ _ _
  · intro eid ep hep
    simp only [create_story, hep]
    exact lookupK_insertK_self _ _ _

theorem claim_C10_new_entities_open_witness :
    (Epic.new ("a") ("b")).status = Status.Open ∧
    lookupK (create_story exState (Story.new ("a") ("b")) 1).1.stories 3 =
      some (Story.new ("a") ("b")) :=
  ⟨(claim_C10_new_entities_open ("a") ("b") exState).1,
   (claim_C10_new_entities_open ("a") ("b") exState).2.2.2.2 1 exEpic (by decide)⟩

end Jira
